import Mathlib

/-!
Verification of the `deno-delayed-writer` operation-queue core (src/mod.ts,
the full variant providing `wait`/`write`/`input`/`do`).

Shallow embedding conventions:
* An operation descriptor is reduced to the data that determines queueing and
  execution behaviour: a `wait` carries its duration, an `emit` carries the
  text it writes to the sink, and a `requestLine` reads one line from the
  source.  The factories' side effects (timers, sink writes, source reads) are
  summarised by how their pending promise settles; a run is therefore
  parametrised by an environment `env : Nat → Settle` giving, for the i-th
  executed operation, how its pending settles (resolution, for `requestLine`
  together with the decoded line it pushes, or a rejection reason).
* Durations are natural numbers of milliseconds (the claims only involve
  non-negative integral durations); the JavaScript `(time / text.length) | 0`
  truncation coincides with `Nat` division there.
* `DelayedWriterError` instances are modelled as `RejectReason.dw message`;
  every other thrown value is `RejectReason.external message`.  The
  `err instanceof DelayedWriterError` test in `do`'s catch block becomes a
  match on the `dw` constructor, independent of the carried message.
* Builder methods mutate `this`; here they return the updated state paired
  with an `Option RejectReason` (`some` models a synchronous throw, in which
  case the state is returned unchanged, as the code throws before mutating).
-/

/-- An operation descriptor in the queue (src/mod.ts: entries pushed by
`pushWaitOperation`, `pushTextOperation`, `pushInputOperation`). -/
inductive Op where
  | wait (time : Nat)
  | emit (text : String)
  | requestLine
deriving DecidableEq, Repr

/-- Reason a promise rejects or a method throws: either a
`DelayedWriterError` carrying some message, or any other error (sink/source
I/O failures and the like). -/
inductive RejectReason where
  | dw (message : String)
  | external (message : String)
deriving DecidableEq, Repr

/-- How an executed operation's pending promise settles.  `resolve line` is a
successful settlement; the `line` component is the decoded line a
`requestLine` operation pushes onto `inputs` (ignored for `wait`/`emit`).
`reject e` is a rejection with reason `e`. -/
inductive Settle where
  | resolve (line : String)
  | reject (e : RejectReason)
deriving DecidableEq, Repr

/-- Message of the error thrown by `assertNotExecuting` (src/mod.ts:156). -/
def misuseMessage : String := "operations are executing, cannot add new operation"

/-- Message of the error a wait operation's cancel rejects with
(src/mod.ts:170). -/
def canceledMessage : String := "operation canceled"

/-- The `DelayedWriter` state: its operation queue, the `inputs` accumulator,
the `isExecuting` flag and the default `time` interval (src/mod.ts:141-152). -/
structure DelayedWriter where
  operationQueue : List Op
  inputs : List String
  isExecuting : Bool
  time : Nat
deriving DecidableEq, Repr

/-- A freshly constructed `DelayedWriter` (src/mod.ts:148-152, with the
default `time = 500`). -/
def mkDelayedWriter : DelayedWriter :=
  { operationQueue := [], inputs := [], isExecuting := false, time := 500 }

/-- `pushWaitOperation` (src/mod.ts:162-176): appends one wait descriptor. -/
def DelayedWriter.pushWaitOperation (w : DelayedWriter) (time : Nat) : DelayedWriter :=
  { w with operationQueue := w.operationQueue ++ [Op.wait time] }

/-- `pushTextOperation` (src/mod.ts:178-184): appends one emit descriptor. -/
def DelayedWriter.pushTextOperation (w : DelayedWriter) (text : String) : DelayedWriter :=
  { w with operationQueue := w.operationQueue ++ [Op.emit text] }

/-- The loop body of `pushWriteOperation` (src/mod.ts:193-203): iterates the
characters with a mutable `first` flag initialised to `false`; each step
pushes a wait when `first` is false (setting `first := true` only in the
`else` branch) and then pushes the character's emit. -/
def writeOps (d : Nat) : Bool → List Char → List Op
  | _, [] => []
  | first, c :: cs =>
    if first = false then
      Op.wait d :: Op.emit c.toString :: writeOps d first cs
    else
      Op.emit c.toString :: writeOps d true cs

/-- `pushWriteOperation` (src/mod.ts:186-204): at `time = 0` a single emit of
the whole text, otherwise the per-character loop with
`delayBetweenLetters = (time / text.length) | 0`. -/
def DelayedWriter.pushWriteOperation (w : DelayedWriter) (text : String) (time : Nat) :
    DelayedWriter :=
  if time = 0 then
    w.pushTextOperation text
  else
    { w with
      operationQueue := w.operationQueue ++ writeOps (time / text.length) false text.data }

/-- `pushInputOperation` (src/mod.ts:206-220): when the prompt is truthy
(present and non-empty) first expand it via `pushWriteOperation`, then append
one request-line descriptor. -/
def DelayedWriter.pushInputOperation (w : DelayedWriter) (prompt : Option String)
    (time : Nat) : DelayedWriter :=
  let w' : DelayedWriter :=
    match prompt with
    | some p => if p = "" then w else w.pushWriteOperation p time
    | none => w
  { w' with operationQueue := w'.operationQueue ++ [Op.requestLine] }

/-- `wait` (src/mod.ts:222-227): guard on `isExecuting` (throwing the misuse
`DelayedWriterError` before any mutation), then update `time` and push. -/
def DelayedWriter.wait (w : DelayedWriter) (time : Nat) :
    DelayedWriter × Option RejectReason :=
  if w.isExecuting then (w, some (RejectReason.dw misuseMessage))
  else (({ w with time := time }).pushWaitOperation time, none)

/-- `write` (src/mod.ts:229-234). -/
def DelayedWriter.write (w : DelayedWriter) (text : String) (time : Nat) :
    DelayedWriter × Option RejectReason :=
  if w.isExecuting then (w, some (RejectReason.dw misuseMessage))
  else (({ w with time := time }).pushWriteOperation text time, none)

/-- `input` (src/mod.ts:236-241). -/
def DelayedWriter.input (w : DelayedWriter) (prompt : Option String) (time : Nat) :
    DelayedWriter × Option RejectReason :=
  if w.isExecuting then (w, some (RejectReason.dw misuseMessage))
  else (({ w with time := time }).pushInputOperation prompt time, none)

/-- The execution loop of `do` (src/mod.ts:257-267): run the queued
operations in order, threading the `inputs` accumulator (a resolving
`requestLine` pushes its decoded line, src/mod.ts:214-216); stop at the first
rejection and report its reason. -/
def runOps (env : Nat → Settle) : List Op → Nat → List String →
    List String × Option RejectReason
  | [], _, acc => (acc, none)
  | op :: rest, i, acc =>
    match env i, op with
    | Settle.resolve line, Op.requestLine => runOps env rest (i + 1) (acc ++ [line])
    | Settle.resolve _, Op.wait _ => runOps env rest (i + 1) acc
    | Settle.resolve _, Op.emit _ => runOps env rest (i + 1) acc
    | Settle.reject e, _ => (acc, some e)

/-- `do` (src/mod.ts:243-279): run the loop; on a `DelayedWriterError`
rejection swallow it, on any other rejection rethrow after cleanup; `cleanup`
(src/mod.ts:249-254) always empties the queue, splices `inputs` out into the
returned snapshot and lowers `isExecuting`.  Returns the final state paired
with the settlement of the `do` promise. -/
def DelayedWriter.doRun (w : DelayedWriter) (env : Nat → Settle) :
    DelayedWriter × Except RejectReason (List String) :=
  let r := runOps env w.operationQueue 0 w.inputs
  let cleaned : DelayedWriter :=
    { w with operationQueue := [], inputs := [], isExecuting := false }
  match r.2 with
  | none => (cleaned, Except.ok r.1)
  | some (RejectReason.dw _) => (cleaned, Except.ok r.1)
  | some (RejectReason.external m) => (cleaned, Except.error (RejectReason.external m))

/-- Spec-side description of input collection: the decoded lines of the
request-line operations, in queue order, as the environment resolves them. -/
def collectedLines (env : Nat → Settle) : List Op → Nat → List String
  | [], _ => []
  | op :: rest, i =>
    match op, env i with
    | Op.requestLine, Settle.resolve line => line :: collectedLines env rest (i + 1)
    | _, _ => collectedLines env rest (i + 1)

/-! ## Helper lemmas about the execution loop -/

/-- If running a prefix of the queue already rejects, the operations queued
after it never influence the loop's outcome. -/
theorem runOps_append_of_reject (env : Nat → Settle) (post : List Op) :
    ∀ (pre : List Op) (i : Nat) (acc acc' : List String) (e : RejectReason),
    runOps env pre i acc = (acc', some e) →
    runOps env (pre ++ post) i acc = (acc', some e) := by
  intro pre
  induction pre with
  | nil =>
    intro i acc acc' e h
    simp [runOps] at h
  | cons op rest ih =>
    intro i acc acc' e h
    cases henv : env i with
    | resolve line =>
      cases op <;>
        simp only [List.cons_append, runOps, henv] at h ⊢ <;>
        exact ih _ _ _ _ h
    | reject e2 =>
      cases op <;>
        simp only [List.cons_append, runOps, henv] at h ⊢ <;>
        exact h

/-- When the environment resolves every operation of the queue segment, the
loop finishes without a rejection and the accumulator gains exactly the
request-line resolutions, in queue order. -/
theorem runOps_all_resolve (env : Nat → Settle) :
    ∀ (ops : List Op) (i : Nat) (acc : List String),
    (∀ j, j < ops.length → ∃ s, env (i + j) = Settle.resolve s) →
    runOps env ops i acc = (acc ++ collectedLines env ops i, none) := by
  intro ops
  induction ops with
  | nil =>
    intro i acc _
    simp [runOps, collectedLines]
  | cons op rest ih =>
    intro i acc h
    obtain ⟨s, hs⟩ := h 0 (by simp)
    rw [Nat.add_zero] at hs
    have hrest : ∀ j, j < rest.length → ∃ s, env (i + 1 + j) = Settle.resolve s := by
      intro j hj
      have h2 := h (j + 1) (by simpa using Nat.succ_lt_succ hj)
      rw [show i + (j + 1) = i + 1 + j by omega] at h2
      exact h2
    cases op with
    | wait t =>
      simp only [runOps, collectedLines, hs, ih (i + 1) acc hrest]
    | emit t =>
      simp only [runOps, collectedLines, hs, ih (i + 1) acc hrest]
    | requestLine =>
      simp only [runOps, collectedLines, hs, ih (i + 1) (acc ++ [s]) hrest,
        List.append_assoc, List.singleton_append]

/-- Whatever happens during the run, the final state is the input state with
the queue spliced empty, the `inputs` accumulator spliced empty, and
`isExecuting` lowered — `cleanup` runs on every exit path. -/
theorem doRun_fst (w : DelayedWriter) (env : Nat → Settle) :
    (w.doRun env).1 =
      { w with operationQueue := [], inputs := [], isExecuting := false } := by
  unfold DelayedWriter.doRun
  cases hr : (runOps env w.operationQueue 0 w.inputs).2 with
  | none => simp [hr]
  | some e => cases e <;> simp [hr]

/-! ## Claim theorems -/

/-- C1.  If the operations queued before some point all behave as the
environment dictates and the next pending rejects with the canceled
condition (a `DelayedWriterError` with the "operation canceled" message),
`do` stops there, yet resolves normally (no rejection) with exactly the
inputs collected before the cancellation, and the remaining operations never
affect the outcome. -/
theorem do_canceled_resolves_with_prefix_inputs
    (w : DelayedWriter) (env : Nat → Settle) (pre post : List Op) (acc : List String)
    (hq : w.operationQueue = pre ++ post)
    (hrun : runOps env pre 0 w.inputs = (acc, some (RejectReason.dw canceledMessage))) :
    (w.doRun env).2 = Except.ok acc ∧
    (w.doRun env).1.operationQueue = [] ∧ (w.doRun env).1.isExecuting = false := by
  have h := runOps_append_of_reject env post pre 0 w.inputs acc _ hrun
  rw [← hq] at h
  refine ⟨?_, by simp [doRun_fst], by simp [doRun_fst]⟩
  unfold DelayedWriter.doRun
  simp [h]

/-- Witness for C1: two queued waits, the first canceled by the signal;
`do` resolves with the empty input list and the queue is drained. -/
theorem do_canceled_resolves_with_prefix_inputs_witness :
    ((((mkDelayedWriter.wait 5).1.wait 5).1.doRun
        (fun _ => Settle.reject (RejectReason.dw canceledMessage))).2 =
      Except.ok [] ∧
    ((((mkDelayedWriter.wait 5).1.wait 5).1.doRun
        (fun _ => Settle.reject (RejectReason.dw canceledMessage))).1.operationQueue =
      [] ∧
    (((mkDelayedWriter.wait 5).1.wait 5).1.doRun
        (fun _ => Settle.reject (RejectReason.dw canceledMessage))).1.isExecuting =
      false)) :=
  do_canceled_resolves_with_prefix_inputs _ _ [Op.wait 5] [Op.wait 5] [] rfl rfl

/-- C2.  If some pending rejects with anything that is not a
`DelayedWriterError` (e.g. a sink I/O failure), `do` runs cleanup — queue
emptied, `isExecuting` lowered — and rejects with exactly that failure. -/
theorem do_external_failure_cleans_then_rejects
    (w : DelayedWriter) (env : Nat → Settle) (acc : List String) (m : String)
    (hrun : runOps env w.operationQueue 0 w.inputs =
      (acc, some (RejectReason.external m))) :
    (w.doRun env).1.operationQueue = [] ∧ (w.doRun env).1.isExecuting = false ∧
    (w.doRun env).2 = Except.error (RejectReason.external m) := by
  refine ⟨by simp [doRun_fst], by simp [doRun_fst], ?_⟩
  unfold DelayedWriter.doRun
  simp [hrun]

/-- Witness for C2: `write("ab", 100)` queued, the sink failing on the first
emit (the second operation); `do` rejects with that failure and the queue is
empty afterwards. -/
theorem do_external_failure_cleans_then_rejects_witness :
    (((mkDelayedWriter.write "ab" 100).1.doRun
        (fun i => if i = 1 then Settle.reject (RejectReason.external "sink failure")
          else Settle.resolve "")).1.operationQueue = [] ∧
    ((mkDelayedWriter.write "ab" 100).1.doRun
        (fun i => if i = 1 then Settle.reject (RejectReason.external "sink failure")
          else Settle.resolve "")).1.isExecuting = false ∧
    ((mkDelayedWriter.write "ab" 100).1.doRun
        (fun i => if i = 1 then Settle.reject (RejectReason.external "sink failure")
          else Settle.resolve "")).2 =
      Except.error (RejectReason.external "sink failure")) :=
  do_external_failure_cleans_then_rejects _ _ [] "sink failure" rfl

/-- C3.  On every exit path of `do` (normal, canceled, or propagated error —
all captured by quantifying over the environment), the final state has an
empty queue and a lowered `isExecuting` flag, and a second `do` on that state
returns the empty input list (there are no operations left to execute). -/
theorem do_resets_state_and_second_do_returns_empty
    (w : DelayedWriter) (env env2 : Nat → Settle) :
    (w.doRun env).1.operationQueue = [] ∧ (w.doRun env).1.isExecuting = false ∧
    ((w.doRun env).1.doRun env2).2 = Except.ok [] := by
  refine ⟨by simp [doRun_fst], by simp [doRun_fst], ?_⟩
  rw [doRun_fst]
  rfl

/-- C4 (code behaviour at the claim's input).  `write("ab", 100)` on a fresh
instance queues 4 = 2·2 operations and the queue begins with a wait, not an
emit: the wait is NOT omitted before the very first character.  The `first`
flag of the loop (src/mod.ts:194-200) starts `false` and is only ever set in
the unreachable `else` branch, so a wait precedes every character. -/
theorem write_waits_before_first_char :
    (mkDelayedWriter.write "ab" 100).1.operationQueue.head? = some (Op.wait 50) ∧
    (mkDelayedWriter.write "ab" 100).1.operationQueue.length = 2 * 2 :=
  ⟨rfl, rfl⟩

/-- C5.  On an idle instance, `write("ab", 100)` appends exactly
wait(50), emit("a"), wait(50), emit("b"), in that order (and throws
nothing); the stored default interval becomes 100. -/
theorem write_ab_100_sequence (w : DelayedWriter) (h : w.isExecuting = false) :
    w.write "ab" 100 =
      ({ w with
          time := 100,
          operationQueue := w.operationQueue ++
            [Op.wait 50, Op.emit "a", Op.wait 50, Op.emit "b"] }, none) := by
  simp only [DelayedWriter.write, h, Bool.false_eq_true, if_false]
  rfl

/-- Witness for C5 on a fresh idle instance. -/
theorem write_ab_100_sequence_witness :
    mkDelayedWriter.write "ab" 100 =
      ({ mkDelayedWriter with
          time := 100,
          operationQueue := mkDelayedWriter.operationQueue ++
            [Op.wait 50, Op.emit "a", Op.wait 50, Op.emit "b"] }, none) :=
  write_ab_100_sequence mkDelayedWriter rfl

/-- C6.  For every text, `write(text, 0)` on an idle instance appends exactly
one emit operation carrying the whole text and no wait operations. -/
theorem write_zero_duration_single_emit (w : DelayedWriter) (text : String)
    (h : w.isExecuting = false) :
    w.write text 0 =
      ({ w with
          time := 0,
          operationQueue := w.operationQueue ++ [Op.emit text] }, none) := by
  simp only [DelayedWriter.write, h, Bool.false_eq_true, if_false]
  rfl

/-- Witness for C6 at text "hello world" on a fresh idle instance. -/
theorem write_zero_duration_single_emit_witness :
    mkDelayedWriter.write "hello world" 0 =
      ({ mkDelayedWriter with
          time := 0,
          operationQueue := mkDelayedWriter.operationQueue ++
            [Op.emit "hello world"] }, none) :=
  write_zero_duration_single_emit mkDelayedWriter "hello world" rfl

/-- C7.  While `isExecuting` is true, every builder method throws the misuse
`DelayedWriterError` synchronously and returns the state unchanged — in
particular the queue and the stored default interval are untouched. -/
theorem builder_guard_when_executing (w : DelayedWriter) (t t2 t3 : Nat)
    (text : String) (prompt : Option String) (h : w.isExecuting = true) :
    w.wait t = (w, some (RejectReason.dw misuseMessage)) ∧
    w.write text t2 = (w, some (RejectReason.dw misuseMessage)) ∧
    w.input prompt t3 = (w, some (RejectReason.dw misuseMessage)) := by
  simp [DelayedWriter.wait, DelayedWriter.write, DelayedWriter.input, h]

/-- An instance caught in the middle of a `do` call: the `isExecuting` flag
is raised. -/
def executingWriter : DelayedWriter :=
  { mkDelayedWriter with operationQueue := [Op.wait 5], isExecuting := true }

/-- Witness for C7 on a concrete executing instance. -/
theorem builder_guard_when_executing_witness :
    executingWriter.wait 1 =
      (executingWriter, some (RejectReason.dw misuseMessage)) ∧
    executingWriter.write "x" 2 =
      (executingWriter, some (RejectReason.dw misuseMessage)) ∧
    executingWriter.input (some "p") 3 =
      (executingWriter, some (RejectReason.dw misuseMessage)) :=
  builder_guard_when_executing executingWriter 1 2 3 "x" (some "p") rfl

/-- C8.  When every queued operation resolves, `do` resolves with the
accumulated inputs: the lines the environment feeds to the request-line
operations, in queue order (appended after whatever the `inputs` field
already held). -/
theorem do_resolves_with_collected_lines (w : DelayedWriter) (env : Nat → Settle)
    (h : ∀ j, j < w.operationQueue.length → ∃ s, env j = Settle.resolve s) :
    (w.doRun env).2 = Except.ok (w.inputs ++ collectedLines env w.operationQueue 0) := by
  have hr := runOps_all_resolve env w.operationQueue 0 w.inputs (by simpa using h)
  unfold DelayedWriter.doRun
  simp [hr]

/-- The queue built by `input("Name? ")` on a fresh instance (the paced
prompt emission followed by one request-line operation). -/
def adaWriter : DelayedWriter := (mkDelayedWriter.input (some "Name? ") 500).1

/-- A source that answers every read with the line "Ada". -/
def adaEnv : Nat → Settle := fun _ => Settle.resolve "Ada"

/-- Witness for C8: `input("Name? ")` against a source yielding "Ada" makes
`do` resolve with exactly `["Ada"]`. -/
theorem do_resolves_with_collected_lines_witness :
    (adaWriter.doRun adaEnv).2 = Except.ok ["Ada"] := by
  have h := do_resolves_with_collected_lines adaWriter adaEnv
    (fun j _ => ⟨"Ada", rfl⟩)
  exact h.trans (by rfl)

/-- Counterexample for C9: on the "Ada" run, `do` resolves with `["Ada"]`,
yet afterwards the `inputs` field of the instance is empty — it does NOT
still hold that run's results (`cleanup` splices the field into the returned
snapshot, src/mod.ts:252). -/
theorem inputs_field_empty_after_do :
    (adaWriter.doRun adaEnv).2 = Except.ok ["Ada"] ∧
    (adaWriter.doRun adaEnv).1.inputs = [] ∧
    (adaWriter.doRun adaEnv).1.inputs ≠ ["Ada"] :=
  ⟨rfl, rfl, fun h => List.noConfusion h⟩

/-- C9 (amended).  After `do` settles, the `inputs` field is empty — that
run's results live only in `do`'s returned snapshot — while the queue is
empty and the executing flag lowered, so the instance is reusable. -/
theorem do_clears_inputs_field (w : DelayedWriter) (env : Nat → Settle) :
    (w.doRun env).1.inputs = [] ∧ (w.doRun env).1.operationQueue = [] ∧
    (w.doRun env).1.isExecuting = false := by
  simp [doRun_fst]

/-- C10.  The execution loop discriminates cancellations only by error class:
a pending that rejects with ANY `DelayedWriterError` — whatever message it
carries, the misuse message included — stops the loop and `do` still resolves
normally with the inputs collected so far. -/
theorem dw_rejection_always_swallowed (w : DelayedWriter) (env : Nat → Settle)
    (acc : List String) (m : String)
    (hrun : runOps env w.operationQueue 0 w.inputs = (acc, some (RejectReason.dw m))) :
    (w.doRun env).2 = Except.ok acc := by
  unfold DelayedWriter.doRun
  simp [hrun]

/-- Witness for C10: a queued wait whose pending rejects with a
`DelayedWriterError` carrying the misuse message (not the canceled one);
`do` still resolves normally. -/
theorem dw_rejection_always_swallowed_witness :
    ((mkDelayedWriter.wait 5).1.doRun
        (fun _ => Settle.reject (RejectReason.dw misuseMessage))).2 =
      Except.ok [] :=
  dw_rejection_always_swallowed _ _ [] misuseMessage rfl
